import Mathlib

set_option maxHeartbeats 1000000

/-!
Shallow embedding of the `build_own_webserver` repository (Python):
the incremental HTTP message parser, the per-connection data buffer,
the longest-prefix route matcher and the request-handling step of
`server_v3.py`.  Bytes are modelled as `List Char` (one `Char` per byte;
all traffic in scope is ASCII).
-/

/-- Convert a Lean string literal to the byte-list representation. -/
def chars (s : String) : List Char := s.data

/-- The header/body separator `\r\n\r\n`. -/
def sepList : List Char := ['\r', '\n', '\r', '\n']

/-- Modelled from the spec: `http_parser.py` is absent from `src/` (only its
tests and callers are present).  Per section 4.1 the parser first splits the
buffer at the first occurrence of the `\r\n\r\n` separator; this helper
returns the part before the separator and the part after it, or `none` when
the separator is not present. -/
def splitOnSep : List Char → Option (List Char × List Char)
  | [] => none
  | c :: cs =>
    if sepList.isPrefixOf (c :: cs) then
      some ([], (c :: cs).drop 4)
    else
      match splitOnSep cs with
      | none => none
      | some (h, r) => some (c :: h, r)

/-- Modelled from the spec: split a byte sequence into lines separated by
`\r\n` (used on the start-line/headers block). -/
def splitLines : List Char → List (List Char)
  | [] => [[]]
  | '\r' :: '\n' :: cs => [] :: splitLines cs
  | c :: cs =>
    match splitLines cs with
    | [] => [[c]]
    | l :: ls => (c :: l) :: ls

/-- Split on runs of spaces, discarding empty tokens (Python `str.split`). -/
def wordsAux : List Char → List Char → List (List Char)
  | cur, [] => if cur.isEmpty then [] else [cur.reverse]
  | cur, c :: cs =>
    if c = ' ' then
      if cur.isEmpty then wordsAux [] cs else cur.reverse :: wordsAux [] cs
    else
      wordsAux (c :: cur) cs

/-- Whitespace-separated tokens of the start line. -/
def words (l : List Char) : List (List Char) := wordsAux [] l

/-- Split a header line at the first colon, if any. -/
def splitAtColon : List Char → Option (List Char × List Char)
  | [] => none
  | c :: cs =>
    if c = ':' then some ([], cs)
    else
      match splitAtColon cs with
      | none => none
      | some (n, v) => some (c :: n, v)

/-- Strip leading spaces of a header value. -/
def dropLeadingSpaces : List Char → List Char
  | ' ' :: cs => dropLeadingSpaces cs
  | l => l

/-- The parser's typed failures (section 7 of the spec). -/
inductive ParseError where
  | incomplete
  | invalid
deriving DecidableEq

/-- A parsed HTTP request (`ParsedRequest` of the spec / `HTTPMessage` of the
code): method, raw url, version, headers with lowercased names, raw body. -/
structure HTTPMessage where
  method : List Char
  url : List Char
  version : List Char
  headers : List (List Char × List Char)
  body : List Char
deriving DecidableEq

/-- Modelled from the spec: a header line must contain a colon, the name is
case-folded to lowercase, the value loses its leading spaces. -/
def parseHeaderLine (l : List Char) : Except ParseError (List Char × List Char) :=
  match splitAtColon l with
  | none => .error .invalid
  | some (n, v) => .ok (n.map Char.toLower, dropLeadingSpaces v)

/-- Modelled from the spec: parse all header lines, failing on the first
malformed one. -/
def parseHeaders : List (List Char) → Except ParseError (List (List Char × List Char))
  | [] => .ok []
  | line :: rest =>
    match parseHeaderLine line with
    | .error e => .error e
    | .ok hv =>
      match parseHeaders rest with
      | .error e => .error e
      | .ok hs => .ok (hv :: hs)

/-- Modelled from the spec: the start line must consist of exactly three
whitespace-separated tokens, then every header line must be well formed. -/
def parseStartHeaders (head : List Char) :
    Except ParseError (List Char × List Char × List Char × List (List Char × List Char)) :=
  match splitLines head with
  | [] => .error .invalid
  | start :: hlines =>
    match words start with
    | [m, u, v] =>
      match parseHeaders hlines with
      | .error e => .error e
      | .ok hs => .ok (m, u, v, hs)
    | _ => .error .invalid

/-- Decimal value of a digit string (most significant digit first). -/
def decValue (l : List Char) : Nat :=
  l.foldl (fun a c => 10 * a + (c.toNat - 48)) 0

/-- Parse a non-negative decimal integer; `none` unless the string is a
non-empty run of digits. -/
def decValueOpt (l : List Char) : Option Nat :=
  if l ≠ [] ∧ l.all Char.isDigit then some (decValue l) else none

/-- The lowercased `content-length` header name. -/
def clKey : List Char := chars "content-length"

/-- Modelled from the spec: declared body length — `0` when the header is
absent, its decimal value when present, `InvalidMessage` when the value is
not a non-negative integer. -/
def contentLength (hs : List (List Char × List Char)) : Except ParseError Nat :=
  match hs.lookup clKey with
  | none => .ok 0
  | some v =>
    match decValueOpt v with
    | none => .error .invalid
    | some n => .ok n

/-- Modelled from the spec: `HTTPParser.parse_message` of the missing
`http_parser.py`.  Splits at the first `\r\n\r\n` (absent separator means
`IncompleteMessage`), parses start line and headers, reads `content-length`,
requires the declared body to be fully buffered (`IncompleteMessage`
otherwise) and returns the message together with the exact number of
consumed bytes: start line + headers + separator + body. -/
def parse_message (buf : List Char) : Except ParseError (HTTPMessage × Nat) :=
  match splitOnSep buf with
  | none => .error .incomplete
  | some (head, rest) =>
    match parseStartHeaders head with
    | .error e => .error e
    | .ok (m, u, v, hs) =>
      match contentLength hs with
      | .error e => .error e
      | .ok n =>
        if rest.length < n then .error .incomplete
        else .ok ({ method := m, url := u, version := v, headers := hs,
                    body := rest.take n }, head.length + 4 + n)

instance {ε α : Type} [DecidableEq ε] [DecidableEq α] : DecidableEq (Except ε α) :=
  fun a b =>
    match a, b with
    | .ok x, .ok y =>
      if h : x = y then .isTrue (by rw [h]) else .isFalse (by intro hc; cases hc; exact h rfl)
    | .error e, .error f =>
      if h : e = f then .isTrue (by rw [h]) else .isFalse (by intro hc; cases hc; exact h rfl)
    | .ok _, .error _ => .isFalse (by intro hc; cases hc)
    | .error _, .ok _ => .isFalse (by intro hc; cases hc)

/-- The loop body of `RouteMatcher.match_location` (`server_v3.py` lines
14-21): scan the route entries in order, keeping the root of the entry whose
prefix matches the uri with strictly greater length than the best seen so
far (which starts at `-1`). -/
def match_loop (uri : List Char) :
    List (List Char × List Char) → Option (List Char) → Int → Option (List Char)
  | [], acc, _ => acc
  | (path, root) :: rest, acc, longest =>
    if path.isPrefixOf uri ∧ (path.length : Int) > longest then
      match_loop uri rest (some root) (path.length : Int)
    else
      match_loop uri rest acc longest

/-- `RouteMatcher.match_location` of `server_v3.py`: longest-prefix route
resolution over the ordered route entries, `none` when no prefix matches. -/
def match_location (locations : List (List Char × List Char)) (uri : List Char) :
    Option (List Char) :=
  match_loop uri locations none (-1)

/-- `DataProvider`'s `data` setter (`server_v3.py` lines 35-38): append the
received chunk at the end of the buffer. -/
def appendData (buf chunk : List Char) : List Char := buf ++ chunk

/-- `DataProvider.reduce_data` (`server_v3.py` lines 40-42): drop the first
`size` bytes of the buffer. -/
def reduce_data (buf : List Char) (size : Nat) : List Char := buf.drop size

/-- The possible behaviours of the underlying `HTTPParser.parse_message`
call as seen by `HTTPProcessor.get_one_http_message`: a returned pair
(whose message slot Python treats as possibly falsy) or a raised exception
of any kind. -/
inductive ParserBehaviour where
  | ret (msg : Option HTTPMessage) (consumed : Nat)
  | exn
deriving DecidableEq

/-- `HTTPProcessor.get_one_http_message` (`server_v3.py` lines 52-61,
identical in `server_v1.py`), abstracted over the parser's behaviour: on a
returned message the buffer loses exactly the consumed prefix and the
message is returned; on a falsy message or any exception the result is
`None` and the buffer is untouched. -/
def get_one_http_message (b : ParserBehaviour) (buf : List Char) :
    Option HTTPMessage × List Char :=
  match b with
  | .exn => (none, buf)
  | .ret none _ => (none, buf)
  | .ret (some m) c => (some m, reduce_data buf c)

/-- `HTTPProcessor.get_one_http_message` with the parser instantiated to the
modelled `parse_message` (every typed parse failure is raised as an
exception, which the processor swallows). -/
def get_one_http_message_v3 (buf : List Char) : Option HTTPMessage × List Char :=
  match parse_message buf with
  | .error _ => (none, buf)
  | .ok (m, c) => (some m, reduce_data buf c)

/-- Little-endian decimal digits of `n`, with enough fuel (any `fuel ≥ n`). -/
def natToDecAux : Nat → Nat → List Char
  | 0, _ => []
  | fuel + 1, n => if n = 0 then [] else Nat.digitChar (n % 10) :: natToDecAux fuel (n / 10)

/-- Decimal rendering of a natural number, as Python `str` / f-string
interpolation produces it. -/
def natToDec (n : Nat) : List Char :=
  if n = 0 then ['0'] else (natToDecAux n n).reverse

/-- The 200 response bytes built in `Server._handle_request` (`server_v3.py`
lines 171-185): status line, `Content-Length`, fixed `Content-Type`, the
optional `Connection: keep-alive` header, blank line, body. -/
def response200 (body : List Char) (keepAlive : Bool) : List Char :=
  chars "HTTP/1.1 200 OK\r\n" ++
  chars "Content-Length: " ++ natToDec body.length ++ chars "\r\n" ++
  chars "Content-Type: text/plain\r\n" ++
  (if keepAlive then chars "Connection: keep-alive\r\n" else []) ++
  chars "\r\n" ++ body

/-- The fixed 404 body of `Server._send_404`. -/
def msg404 : List Char := chars "404 Not Found"

/-- The 404 response bytes built in `Server._send_404` (`server_v3.py`
lines 194-202). -/
def response404 : List Char :=
  chars "HTTP/1.1 404 Not Found\r\n" ++
  chars "Content-Length: " ++ natToDec msg404.length ++ chars "\r\n" ++
  chars "Content-Type: text/plain\r\n\r\n" ++ msg404

/-- The fixed default root directory of `_handle_request`. -/
def defaultRoot : List Char := chars "html"

/-- Python renders the `None` object as the string `None` inside the
f-string `f"{root}{url}"`. -/
def noneRoot : List Char := chars "None"

/-- The url rewrite and route resolution of `_handle_request`
(`server_v3.py` lines 156-162): a request for exactly `/` keeps the default
root `html` and becomes `/index.html` with no route lookup; any other url is
resolved through `match_location`. -/
def resolveRoot (routes : List (List Char × List Char)) (url : List Char) :
    Option (List Char) × List Char :=
  if url = chars "/" then (some defaultRoot, chars "/index.html")
  else (match_location routes url, url)

/-- Python's f-string rendering of the resolved root. -/
def rootString : Option (List Char) → List Char
  | some r => r
  | none => noneRoot

/-- Substring test, Python's `in` operator on strings. -/
def hasSubstr (needle : List Char) : List Char → Bool
  | [] => needle.isEmpty
  | c :: t => needle.isPrefixOf (c :: t) || hasSubstr needle t

/-- The lowercased `connection` header name. -/
def connKey : List Char := chars "connection"

/-- The keep-alive token. -/
def kaKey : List Char := chars "keep-alive"

/-- The keep-alive check of `_handle_request` (`server_v3.py` line 177):
`"keep-alive" in request.headers.get("connection", "").lower()`. -/
def keepAliveOf (req : HTTPMessage) : Bool :=
  hasSubstr kaKey (((req.headers.lookup connKey).getD []).map Char.toLower)

/-- The observable state of one connection: its buffer, the responses
written to the socket so far (in order), and whether the socket has been
unregistered and closed. -/
structure ConnState where
  buffer : List Char
  sent : List (List Char)
  closed : Bool
deriving DecidableEq

/-- The drain loop of `Server._handle_request` (`server_v3.py` lines
151-192), with the recursion bounded by an explicit fuel (each parsed
message consumes at least the 4 separator bytes, so `buffer.length + 1`
iterations always suffice).  One iteration: pull one message via the
processor (any parse failure yields `None` and ends the loop); rewrite the
url and resolve the root; read the file; on success send the 200 response
and continue only in the keep-alive case, otherwise unregister and close
without sending; on a failed read send the 404 response, unregister and
close. -/
def handleLoop (fs : List Char → Option (List Char))
    (routes : List (List Char × List Char)) :
    Nat → ConnState → ConnState
  | 0, st => st
  | fuel + 1, st =>
    match parse_message st.buffer with
    | .error _ => st
    | .ok (req, consumed) =>
      let st1 : ConnState := { st with buffer := reduce_data st.buffer consumed }
      let rr := resolveRoot routes req.url
      match fs (rootString rr.1 ++ rr.2) with
      | some body =>
        if keepAliveOf req then
          handleLoop fs routes fuel
            { st1 with sent := st1.sent ++ [response200 body true] }
        else
          { st1 with closed := true }
      | none =>
        { st1 with sent := st1.sent ++ [response404], closed := true }

/-- `Server._handle_request` of `server_v3.py` on one read event, for a
given filesystem `fs` (path to file bytes) and route table. -/
def handle_request (fs : List Char → Option (List Char))
    (routes : List (List Char × List Char)) (st : ConnState) : ConnState :=
  handleLoop fs routes (st.buffer.length + 1) st

/-- Demo filesystem: only `html/index.html` exists, holding `hello`. -/
def fsDemo : List Char → Option (List Char) :=
  fun p => if p = chars "html/index.html" then some (chars "hello") else none

/-- Demo filesystem holding a file under the default root and a file under
the root a route for `/index.html` would select. -/
def fsBoth : List Char → Option (List Char) :=
  fun p =>
    if p = chars "html/index.html" then some (chars "default!")
    else if p = chars "special/index.html" then some (chars "routed!")
    else none

/-- The empty filesystem: every read fails. -/
def fsNone : List Char → Option (List Char) := fun _ => none

/-- Demo route table `{"/": "html"}`. -/
def routesDemo : List (List Char × List Char) := [(chars "/", chars "html")]

/-- Demo route table whose only prefix is `/api`. -/
def routesApiOnly : List (List Char × List Char) := [(chars "/api", chars "api_root")]

/-- Demo route table with an entry whose prefix is exactly `/index.html`. -/
def routesIdx : List (List Char × List Char) := [(chars "/index.html", chars "special")]

/-- A complete request without a `Connection` header. -/
def reqNoKeepAlive : List Char := chars "GET /index.html HTTP/1.1\r\nHost: h\r\n\r\n"

/-- A request whose start line is not three tokens. -/
def reqBadStart : List Char := chars "BADREQUEST\r\nHost: x\r\n\r\n"

/-- A request with a header line without a colon. -/
def reqNoColon : List Char := chars "GET / HTTP/1.1\r\nNoColonHeader\r\n\r\n"

/-- A request whose `Connection` value merely contains `keep-alive` as a
substring. -/
def reqSubstrKA : List Char := chars "GET / HTTP/1.1\r\nConnection: xkeep-alivex\r\n\r\n"

/-- A request with `Connection: keep-alive` exactly. -/
def reqExactKA : List Char := chars "GET / HTTP/1.1\r\nConnection: keep-alive\r\n\r\n"

/-- The parsed form of `reqExactKA`. -/
def msgExactKA : HTTPMessage :=
  { method := chars "GET", url := chars "/", version := chars "HTTP/1.1",
    headers := [(chars "connection", chars "keep-alive")], body := [] }

/-- A request for `/` with `Connection: keep-alive`. -/
def reqRootKA : List Char := reqExactKA

/-- A complete request for `/about`. -/
def reqAbout : List Char := chars "GET /about HTTP/1.1\r\nHost: h\r\n\r\n"

/-- The parsed form of `reqAbout`. -/
def msgAbout : HTTPMessage :=
  { method := chars "GET", url := chars "/about", version := chars "HTTP/1.1",
    headers := [(chars "host", chars "h")], body := [] }

/-- First pipelined request of `test_multiple_messages_in_one_buffer`. -/
def pipeA : List Char :=
  chars "GET /first HTTP/1.1\r\nHost: example.com\r\nContent-Length: 0\r\n\r\n"

/-- Second pipelined request of `test_multiple_messages_in_one_buffer`. -/
def pipeB : List Char :=
  chars "POST /submit HTTP/1.1\r\nHost: example.com\r\nContent-Length: 5\r\n\r\nhello"

/-- The parsed form of `pipeA`. -/
def msgPipeA : HTTPMessage :=
  { method := chars "GET", url := chars "/first", version := chars "HTTP/1.1",
    headers := [(chars "host", chars "example.com"), (chars "content-length", chars "0")],
    body := [] }

/-- The parsed form of `pipeB`. -/
def msgPipeB : HTTPMessage :=
  { method := chars "POST", url := chars "/submit", version := chars "HTTP/1.1",
    headers := [(chars "host", chars "example.com"), (chars "content-length", chars "5")],
    body := chars "hello" }

theorem digitChar_toNat {d : Nat} (h : d < 10) : (Nat.digitChar d).toNat - 48 = d := by
  interval_cases d <;> rfl

theorem decValue_natToDecAux :
    ∀ fuel n, n ≤ fuel → decValue ((natToDecAux fuel n).reverse) = n := by
  intro fuel
  induction fuel with
  | zero =>
    intro n h
    have h0 : n = 0 := Nat.le_zero.mp h
    subst h0; rfl
  | succ f ih =>
    intro n h
    by_cases h0 : n = 0
    · subst h0; rfl
    · have hdiv : n / 10 ≤ f := by
        have := Nat.div_lt_self (Nat.pos_of_ne_zero h0) (by norm_num : 1 < 10)
        omega
      have hrec := ih (n / 10) hdiv
      have hd : (Nat.digitChar (n % 10)).toNat - 48 = n % 10 :=
        digitChar_toNat (Nat.mod_lt n (by norm_num))
      rw [natToDecAux, if_neg h0]
      simp only [List.reverse_cons]
      unfold decValue at hrec ⊢
      rw [List.foldl_append, hrec]
      simp only [List.foldl_cons, List.foldl_nil]
      omega

theorem decValue_natToDec (n : Nat) : decValue (natToDec n) = n := by
  by_cases h0 : n = 0
  · subst h0; rfl
  · rw [natToDec, if_neg h0]
    exact decValue_natToDecAux n n le_rfl

theorem splitOnSep_eq :
    ∀ {l h r : List Char}, splitOnSep l = some (h, r) → l = h ++ sepList ++ r := by
  intro l
  induction l with
  | nil => intro h r hs; simp [splitOnSep] at hs
  | cons c cs ih =>
    intro h r hs
    rw [splitOnSep] at hs
    by_cases hp : sepList.isPrefixOf (c :: cs)
    · rw [if_pos hp] at hs
      simp only [Option.some.injEq, Prod.mk.injEq] at hs
      obtain ⟨hh, hr⟩ := hs
      have hpre : sepList <+: (c :: cs) := by
        simpa using hp
      obtain ⟨t, ht⟩ := hpre
      have hdrop : (c :: cs).drop 4 = t := by
        rw [← ht]; exact List.drop_left' (by rfl)
      subst hh
      rw [← hr, hdrop, List.nil_append, ht]
    · rw [if_neg hp] at hs
      cases hsplit : splitOnSep cs with
      | none => rw [hsplit] at hs; simp at hs
      | some pr =>
        obtain ⟨h', r'⟩ := pr
        rw [hsplit] at hs
        simp only [Option.some.injEq, Prod.mk.injEq] at hs
        obtain ⟨hh, hr⟩ := hs
        have hcs := ih hsplit
        subst hh; subst hr
        simp [hcs]

theorem isPrefixOf_append_of_le :
    ∀ (p l b : List Char), p.length ≤ l.length →
      p.isPrefixOf (l ++ b) = p.isPrefixOf l := by
  intro p
  induction p with
  | nil => intro l b _; simp [List.isPrefixOf]
  | cons a p' ih =>
    intro l b h
    cases l with
    | nil => simp at h
    | cons x xs =>
      simp only [List.cons_append, List.isPrefixOf, List.append_eq]
      rw [ih xs b (by simpa using h)]

theorem splitOnSep_append :
    ∀ {l h r : List Char} (b : List Char),
      splitOnSep l = some (h, r) → splitOnSep (l ++ b) = some (h, r ++ b) := by
  intro l
  induction l with
  | nil => intro h r b hs; simp [splitOnSep] at hs
  | cons c cs ih =>
    intro h r b hs
    rw [splitOnSep] at hs
    by_cases hp : sepList.isPrefixOf (c :: cs)
    · rw [if_pos hp] at hs
      simp only [Option.some.injEq, Prod.mk.injEq] at hs
      obtain ⟨hh, hr⟩ := hs
      have hpre : sepList <+: (c :: cs) := by simpa using hp
      have hlen : 4 ≤ (c :: cs).length := hpre.length_le
      have hp2 : sepList.isPrefixOf ((c :: cs) ++ b) = true := by
        rw [isPrefixOf_append_of_le sepList (c :: cs) b hlen]
        exact hp
      rw [List.cons_append, splitOnSep]
      rw [List.cons_append] at hp2
      rw [if_pos hp2]
      have hdrop : (c :: (cs ++ b)).drop 4 = (c :: cs).drop 4 ++ b := by
        rw [← List.cons_append]
        exact List.drop_append_of_le_length hlen
      rw [hdrop, ← hh, ← hr]
    · rw [if_neg hp] at hs
      cases hsplit : splitOnSep cs with
      | none => rw [hsplit] at hs; simp at hs
      | some pr =>
        obtain ⟨h', r'⟩ := pr
        rw [hsplit] at hs
        simp only [Option.some.injEq, Prod.mk.injEq] at hs
        obtain ⟨hh, hr⟩ := hs
        have hcs := splitOnSep_eq hsplit
        have hlen : 4 ≤ (c :: cs).length := by
          rw [hcs]; simp [sepList]; omega
        have hp2 : sepList.isPrefixOf ((c :: cs) ++ b) = false := by
          rw [isPrefixOf_append_of_le sepList (c :: cs) b hlen]
          exact Bool.eq_false_iff.mpr hp
        rw [List.cons_append, splitOnSep]
        rw [List.cons_append] at hp2
        rw [if_neg (by simp [hp2])]
        rw [ih b hsplit]
        rw [← hh, ← hr]

theorem parse_message_append {A : List Char} {m : HTTPMessage} (B : List Char)
    (hA : parse_message A = .ok (m, A.length)) :
    parse_message (A ++ B) = .ok (m, A.length) := by
  cases hsplit : splitOnSep A with
  | none =>
    simp only [parse_message, hsplit] at hA
    exact Except.noConfusion hA
  | some pr =>
    obtain ⟨head, rest⟩ := pr
    have hAB := splitOnSep_append B hsplit
    cases hsh : parseStartHeaders head with
    | error e =>
      simp only [parse_message, hsplit, hsh] at hA
      exact Except.noConfusion hA
    | ok q =>
      obtain ⟨mm, uu, vv, hh⟩ := q
      cases hcl : contentLength hh with
      | error e =>
        simp only [parse_message, hsplit, hsh, hcl] at hA
        exact Except.noConfusion hA
      | ok n =>
        simp only [parse_message, hsplit, hsh, hcl] at hA
        simp only [parse_message, hAB, hsh, hcl]
        by_cases hlt : rest.length < n
        · rw [if_pos hlt] at hA; simp at hA
        · rw [if_neg hlt] at hA
          simp only [Except.ok.injEq, Prod.mk.injEq] at hA
          obtain ⟨hm, hc⟩ := hA
          have hstruct := splitOnSep_eq hsplit
          have hlenA : A.length = head.length + 4 + rest.length := by
            rw [hstruct]; simp [sepList]; omega
          have hn : n = rest.length := by omega
          rw [if_neg (by simp; omega)]
          have htake : (rest ++ B).take n = rest.take n :=
            List.take_append_of_le_length (by omega)
          rw [htake, hm, hc]

theorem match_loop_skip (uri : List Char) :
    ∀ (rest : List (List Char × List Char)) (acc : Option (List Char)) (l : Int),
      (∀ p ∈ rest, ¬(p.1.isPrefixOf uri = true ∧ (p.1.length : Int) > l)) →
      match_loop uri rest acc l = acc := by
  intro rest
  induction rest with
  | nil => intro acc l _; rfl
  | cons e tl ih =>
    intro acc l h
    obtain ⟨path, root⟩ := e
    rw [match_loop]
    rw [if_neg (h (path, root) (List.mem_cons_self _ _))]
    exact ih acc l fun p hp => h p (List.mem_cons_of_mem _ hp)

theorem match_loop_first_longest (uri : List Char) :
    ∀ (pre : List (List Char × List Char)) (p r : List Char)
      (post : List (List Char × List Char)) (acc : Option (List Char)) (l : Int),
      p.isPrefixOf uri = true → (p.length : Int) > l →
      (∀ q ∈ pre, q.1.isPrefixOf uri = true → q.1.length < p.length) →
      (∀ q ∈ post, q.1.isPrefixOf uri = true → q.1.length ≤ p.length) →
      match_loop uri (pre ++ (p, r) :: post) acc l = some r := by
  intro pre
  induction pre with
  | nil =>
    intro p r post acc l hm hgt _ hpost
    rw [List.nil_append, match_loop, if_pos ⟨hm, hgt⟩]
    apply match_loop_skip
    rintro q hq ⟨hqm, hql⟩
    have := hpost q hq hqm
    omega
  | cons e tl ih =>
    intro p r post acc l hm hgt hpre hpost
    obtain ⟨qp, qr⟩ := e
    rw [List.cons_append, match_loop]
    by_cases hcond : qp.isPrefixOf uri = true ∧ (qp.length : Int) > l
    · rw [if_pos hcond]
      have hlt : qp.length < p.length :=
        hpre (qp, qr) (List.mem_cons_self _ _) hcond.1
      exact ih p r post (some qr) (qp.length : Int) hm (by exact_mod_cast hlt)
        (fun q hq hqm => hpre q (List.mem_cons_of_mem _ hq) hqm) hpost
    · rw [if_neg hcond]
      exact ih p r post acc l hm hgt
        (fun q hq hqm => hpre q (List.mem_cons_of_mem _ hq) hqm) hpost

theorem handleLoopStops (fs : List Char → Option (List Char))
    (routes : List (List Char × List Char)) :
    ∀ fuel st e, parse_message st.buffer = .error e →
      handleLoop fs routes fuel st = st := by
  intro fuel st e h
  cases fuel with
  | zero => rfl
  | succ f => rw [handleLoop, h]

theorem parser_test_valid_get :
    parse_message (chars "GET /index.html HTTP/1.1\r\nHost: example.com\r\nUser-Agent: TestClient\r\n\r\n") =
      .ok ({ method := chars "GET", url := chars "/index.html", version := chars "HTTP/1.1",
             headers := [(chars "host", chars "example.com"), (chars "user-agent", chars "TestClient")],
             body := [] },
           (chars "GET /index.html HTTP/1.1\r\nHost: example.com\r\nUser-Agent: TestClient\r\n\r\n").length) := by
  decide

theorem parser_test_valid_post :
    parse_message (chars "POST /submit HTTP/1.1\r\nHost: example.com\r\nContent-Length: 11\r\n\r\nhello=world") =
      .ok ({ method := chars "POST", url := chars "/submit", version := chars "HTTP/1.1",
             headers := [(chars "host", chars "example.com"), (chars "content-length", chars "11")],
             body := chars "hello=world" },
           (chars "POST /submit HTTP/1.1\r\nHost: example.com\r\nContent-Length: 11\r\n\r\nhello=world").length) := by
  decide

theorem parser_test_incomplete_headers :
    parse_message (chars "GET / HTTP/1.1\r\nHost: test") = .error .incomplete := by decide

theorem parser_test_incomplete_body :
    parse_message (chars "POST / HTTP/1.1\r\nHost: test\r\nContent-Length: 20\r\n\r\nshort") =
      .error .incomplete := by decide

theorem parser_test_invalid_start_line :
    parse_message reqBadStart = .error .invalid := by decide

theorem parser_test_invalid_header_line :
    parse_message (chars "GET / HTTP/1.1\r\nInvalidHeader\r\n\r\n") = .error .invalid := by decide

theorem parser_test_invalid_content_length :
    parse_message (chars "POST / HTTP/1.1\r\nContent-Length: abc\r\n\r\nhello") =
      .error .invalid := by decide

theorem handle_one (fs : List Char → Option (List Char))
    (routes : List (List Char × List Char)) (st : ConnState) (req : HTTPMessage)
    (body : List Char)
    (hparse : parse_message st.buffer = .ok (req, st.buffer.length))
    (hfile : fs (rootString (resolveRoot routes req.url).1 ++ (resolveRoot routes req.url).2) =
      some body) :
    handle_request fs routes st =
      if keepAliveOf req then
        { buffer := [], sent := st.sent ++ [response200 body true], closed := st.closed }
      else
        { buffer := [], sent := st.sent, closed := true } := by
  have hempty : reduce_data st.buffer st.buffer.length = [] := by
    simp [reduce_data]
  simp only [handle_request, handleLoop, hparse, hfile, hempty]
  by_cases h : keepAliveOf req = true
  · rw [if_pos h, if_pos h]
    exact handleLoopStops fs routes st.buffer.length _ .incomplete rfl
  · rw [if_neg h, if_neg h]

/-- C1: the claim states that when `keepAlive` is false the server first
sends the complete response and only then unregisters and closes the
socket.  `server_v3.py` lines 176-192 instead return after
`selector.unregister` and `sock.close()` without ever reaching the
`sendall` call: this evaluation shows that for a buffered complete request
without a `Connection: keep-alive` header, whose file exists, the
connection ends closed with an empty list of sent responses. -/
theorem claim_C1_close_without_response :
    handle_request fsDemo routesDemo ⟨reqNoKeepAlive, [], false⟩ =
      ⟨[], [], true⟩ := by decide

/-- C2 counterexample: the claim states that an `InvalidMessage` parse
failure is terminal — the socket is unregistered and closed.  On the
malformed buffer `BADREQUEST\r\nHost: x\r\n\r\n` (an `InvalidMessage`
per the parser) `_handle_request` leaves the connection in its original
state: not closed, nothing sent, buffer untouched — because
`get_one_http_message` swallows the exception and returns `None`, which
merely ends the drain loop. -/
theorem claim_C2_counterexample :
    parse_message reqBadStart = .error .invalid ∧
    handle_request fsDemo routesDemo ⟨reqBadStart, [], false⟩ =
      ⟨reqBadStart, [], false⟩ := by decide

/-- C2 amended: whenever parsing the buffered bytes fails with
`InvalidMessage`, no response is sent for the malformed message and the
drain loop stops, but the socket is NOT unregistered or closed: the
connection state (buffer, sent responses, open/closed flag) is left
completely unchanged. -/
theorem claim_C2_amended (fs : List Char → Option (List Char))
    (routes : List (List Char × List Char)) (st : ConnState)
    (h : parse_message st.buffer = .error .invalid) :
    handle_request fs routes st = st :=
  handleLoopStops fs routes _ st .invalid h

theorem claim_C2_amended_witness :
    parse_message reqNoColon = .error .invalid ∧
    handle_request fsNone routesDemo ⟨reqNoColon, [], false⟩ =
      ⟨reqNoColon, [], false⟩ :=
  ⟨by decide, claim_C2_amended fsNone routesDemo ⟨reqNoColon, [], false⟩ (by decide)⟩

/-- C3 counterexample: the claim states the session stays open exactly when
the `Connection` value equals `keep-alive` case-insensitively.  The code
tests substring containment: for `Connection: xkeep-alivex` — a value
different from `keep-alive` even after lowercasing — the session is still
kept open and the 200 response is sent. -/
theorem claim_C3_counterexample :
    (chars "xkeep-alivex").map Char.toLower ≠ kaKey ∧
    (handle_request fsDemo routesDemo ⟨reqSubstrKA, [], false⟩).closed = false ∧
    (handle_request fsDemo routesDemo ⟨reqSubstrKA, [], false⟩).sent =
      [response200 (chars "hello") true] := by decide

/-- C3 amended: for a buffer holding exactly one complete request whose
file read succeeds, the session is kept open after the request exactly when
`keep-alive` occurs case-insensitively as a SUBSTRING of the request's
`Connection` header value (absent header treated as the empty string);
in the kept-open case the 200 response is sent. -/
theorem claim_C3_amended (fs : List Char → Option (List Char))
    (routes : List (List Char × List Char)) (st : ConnState) (req : HTTPMessage)
    (body : List Char)
    (hparse : parse_message st.buffer = .ok (req, st.buffer.length))
    (hfile : fs (rootString (resolveRoot routes req.url).1 ++ (resolveRoot routes req.url).2) =
      some body)
    (hopen : st.closed = false) :
    ((handle_request fs routes st).closed = false ↔
      hasSubstr kaKey (((req.headers.lookup connKey).getD []).map Char.toLower) = true) ∧
    (hasSubstr kaKey (((req.headers.lookup connKey).getD []).map Char.toLower) = true →
      (handle_request fs routes st).sent = st.sent ++ [response200 body true]) := by
  have h1 := handle_one fs routes st req body hparse hfile
  by_cases h : keepAliveOf req = true
  · rw [h1, if_pos h]
    exact ⟨⟨fun _ => h, fun _ => hopen⟩, fun _ => rfl⟩
  · rw [h1, if_neg h]
    refine ⟨⟨fun hc => absurd hc (by simp), fun hs => absurd hs h⟩, fun hs => absurd hs h⟩

theorem claim_C3_amended_witness :
    ((handle_request fsDemo routesDemo ⟨reqExactKA, [], false⟩).closed = false ↔
      hasSubstr kaKey (((msgExactKA.headers.lookup connKey).getD []).map Char.toLower) = true) ∧
    (hasSubstr kaKey (((msgExactKA.headers.lookup connKey).getD []).map Char.toLower) = true →
      (handle_request fsDemo routesDemo ⟨reqExactKA, [], false⟩).sent =
        [] ++ [response200 (chars "hello") true]) :=
  claim_C3_amended fsDemo routesDemo ⟨reqExactKA, [], false⟩ msgExactKA (chars "hello")
    (by decide) (by decide) rfl

/-- C4: route resolution returns the root of an entry whose prefix is a
literal prefix of the path with strictly greatest length among matching
entries, the first such entry in iteration order winning ties (expressed by
the decomposition `locs = pre ++ (p, r) :: post` where every matching entry
of `pre` is strictly shorter and every matching entry of `post` is no
longer), returns `none` when no entry's prefix matches, and on the spec's
examples: `{"/": R1, "/api": R2}` resolves `/api/users` to `R2` and
`/about` to `R1`. -/
theorem claim_C4_longest_prefix_routing
    (locs : List (List Char × List Char)) (uri : List Char) :
    ((∀ q ∈ locs, q.1.isPrefixOf uri = false) → match_location locs uri = none) ∧
    (∀ (pre : List (List Char × List Char)) (p r : List Char)
       (post : List (List Char × List Char)),
      locs = pre ++ (p, r) :: post →
      p.isPrefixOf uri = true →
      (∀ q ∈ pre, q.1.isPrefixOf uri = true → q.1.length < p.length) →
      (∀ q ∈ post, q.1.isPrefixOf uri = true → q.1.length ≤ p.length) →
      match_location locs uri = some r) ∧
    match_location [(chars "/", chars "R1"), (chars "/api", chars "R2")] (chars "/api/users") =
      some (chars "R2") ∧
    match_location [(chars "/", chars "R1"), (chars "/api", chars "R2")] (chars "/about") =
      some (chars "R1") := by
  refine ⟨?_, ?_, by decide, by decide⟩
  · intro h
    apply match_loop_skip
    rintro q hq ⟨hqm, _⟩
    rw [h q hq] at hqm
    exact Bool.noConfusion hqm
  · intro pre p r post heq hm hpre hpost
    rw [match_location, heq]
    exact match_loop_first_longest uri pre p r post none (-1) hm (by omega) hpre hpost

theorem claim_C4_witness :
    match_location routesApiOnly (chars "/about") = none ∧
    match_location [(chars "/", chars "R1"), (chars "/api", chars "R2")] (chars "/api/users") =
      some (chars "R2") :=
  ⟨(claim_C4_longest_prefix_routing routesApiOnly (chars "/about")).1 (by decide),
   (claim_C4_longest_prefix_routing [(chars "/", chars "R1"), (chars "/api", chars "R2")]
      (chars "/api/users")).2.1 [(chars "/", chars "R1")] (chars "/api") (chars "R2") [] rfl
      (by decide) (by decide) (by decide)⟩

/-- C5 counterexample: the claim states the root falls back to the default
directory ONLY IF no route matched for the rewritten path `/index.html`.
With routes `{"/index.html": "special"}` a route does match the rewritten
path, yet the code never attempts resolution for `/`: the root used is the
default `html` and the served body is the one under `html`, not the one
under `special`. -/
theorem claim_C5_counterexample :
    resolveRoot routesIdx (chars "/") = (some defaultRoot, chars "/index.html") ∧
    match_location routesIdx (chars "/index.html") = some (chars "special") ∧
    chars "special" ≠ defaultRoot ∧
    (handle_request fsBoth routesIdx ⟨reqRootKA, [], false⟩).sent =
      [response200 (chars "default!") true] := by decide

/-- C5 amended: a request path of exactly `/` is rewritten to `/index.html`
and the root is unconditionally the fixed default directory `html` — route
resolution is never attempted for the rewritten path; for any other path
the root is exactly the result of route resolution on that path. -/
theorem claim_C5_amended (routes : List (List Char × List Char)) (url : List Char) :
    resolveRoot routes (chars "/") = (some defaultRoot, chars "/index.html") ∧
    (url ≠ chars "/" → resolveRoot routes url = (match_location routes url, url)) := by
  constructor
  · rw [resolveRoot, if_pos rfl]
  · intro h
    rw [resolveRoot, if_neg h]

theorem claim_C5_amended_witness :
    resolveRoot routesIdx (chars "/") = (some defaultRoot, chars "/index.html") ∧
    resolveRoot routesIdx (chars "/about") =
      (match_location routesIdx (chars "/about"), chars "/about") :=
  ⟨(claim_C5_amended routesIdx (chars "/about")).1,
   (claim_C5_amended routesIdx (chars "/about")).2 (by decide)⟩

/-- C6: for a parsed request whose path matches no route prefix (resolution
returns `none`), and whose `None`-concatenated fallback path has no file,
the server sends exactly the 404 response and closes the connection — the
handling step returns normally rather than crashing or propagating an
error. -/
theorem claim_C6_no_route_404 (fs : List Char → Option (List Char))
    (routes : List (List Char × List Char)) (st : ConnState) (req : HTTPMessage)
    (consumed : Nat)
    (hparse : parse_message st.buffer = .ok (req, consumed))
    (hurl : req.url ≠ chars "/")
    (hroute : match_location routes req.url = none)
    (hfile : fs (noneRoot ++ req.url) = none) :
    handle_request fs routes st =
      { buffer := reduce_data st.buffer consumed, sent := st.sent ++ [response404],
        closed := true } := by
  have hrr : resolveRoot routes req.url = (none, req.url) := by
    rw [resolveRoot, if_neg hurl, hroute]
  simp only [handle_request, handleLoop, hparse, hrr, rootString, hfile]

theorem claim_C6_witness :
    handle_request fsNone routesApiOnly ⟨reqAbout, [], false⟩ =
      { buffer := reduce_data reqAbout reqAbout.length, sent := [] ++ [response404],
        closed := true } :=
  claim_C6_no_route_404 fsNone routesApiOnly ⟨reqAbout, [], false⟩ msgAbout reqAbout.length
    (by decide) (by decide) (by decide) (by decide)

/-- C7: every 200 response is the status line, a `Content-Length` header
whose decimal digits denote exactly the byte length of the body, the fixed
`Content-Type: text/plain` header, optionally `Connection: keep-alive`, the
blank-line terminator, then the body bytes; the 404 variant has status line
`HTTP/1.1 404 Not Found`, the fixed body `404 Not Found` and the same
header shape with the corresponding length, and any read failure makes the
handler send exactly that 404 response. -/
theorem claim_C7_response_format (body : List Char) (kA : Bool)
    (fs : List Char → Option (List Char)) (routes : List (List Char × List Char))
    (st : ConnState) (req : HTTPMessage) (consumed : Nat) :
    response200 body kA =
      chars "HTTP/1.1 200 OK\r\n" ++
      chars "Content-Length: " ++ natToDec body.length ++ chars "\r\n" ++
      chars "Content-Type: text/plain\r\n" ++
      (if kA then chars "Connection: keep-alive\r\n" else []) ++
      chars "\r\n" ++ body ∧
    decValue (natToDec body.length) = body.length ∧
    response404 =
      chars "HTTP/1.1 404 Not Found\r\n" ++
      chars "Content-Length: " ++ natToDec msg404.length ++ chars "\r\n" ++
      chars "Content-Type: text/plain\r\n\r\n" ++ msg404 ∧
    decValue (natToDec msg404.length) = msg404.length ∧
    msg404 = chars "404 Not Found" ∧
    (parse_message st.buffer = .ok (req, consumed) →
      fs (rootString (resolveRoot routes req.url).1 ++ (resolveRoot routes req.url).2) = none →
      (handle_request fs routes st).sent = st.sent ++ [response404]) := by
  refine ⟨rfl, decValue_natToDec body.length, rfl, decValue_natToDec msg404.length, rfl, ?_⟩
  intro hparse hfile
  simp only [handle_request, handleLoop, hparse, hfile]

theorem claim_C7_witness :
    decValue (natToDec (chars "hello").length) = (chars "hello").length ∧
    (handle_request fsNone routesApiOnly ⟨reqAbout, [], false⟩).sent = [] ++ [response404] :=
  ⟨(claim_C7_response_format (chars "hello") false fsNone routesApiOnly
      ⟨reqAbout, [], false⟩ msgAbout reqAbout.length).2.1,
   (claim_C7_response_format (chars "hello") false fsNone routesApiOnly
      ⟨reqAbout, [], false⟩ msgAbout reqAbout.length).2.2.2.2.2 (by decide) (by decide)⟩

/-- C8: the connection buffer only ever changes by appending received bytes
at the end (`data` setter) or by removing a contiguous prefix
(`reduce_data`), the removal leaving a suffix of the old buffer (so bytes
are never reordered); and the processor removes exactly the number of bytes
the parser reports consumed, or leaves the buffer completely unchanged. -/
theorem claim_C8_buffer_invariant (buf chunk : List Char) (n : Nat) :
    appendData buf chunk = buf ++ chunk ∧
    reduce_data buf n = buf.drop n ∧
    reduce_data buf n <:+ buf ∧
    ((get_one_http_message_v3 buf).2 = buf ∨
      ∃ m c, parse_message buf = .ok (m, c) ∧
        (get_one_http_message_v3 buf).2 = reduce_data buf c) := by
  refine ⟨rfl, rfl, List.drop_suffix n buf, ?_⟩
  cases hp : parse_message buf with
  | error e => left; simp [get_one_http_message_v3, hp]
  | ok pr =>
    obtain ⟨m, c⟩ := pr
    right
    exact ⟨m, c, rfl, by simp [get_one_http_message_v3, hp]⟩

/-- C9: for complete requests `A` and `B` (each parsing with a consumed
count equal to its own length), parsing `A ++ B` yields message `A` with
`consumed = A.length`, and parsing the remaining buffer after dropping the
consumed prefix yields message `B` with `consumed = B.length`; the parser
is a pure function of the buffer, so repeated calls extract each pipelined
message in turn. -/
theorem claim_C9_pipelining (A B : List Char) (mA mB : HTTPMessage)
    (hA : parse_message A = .ok (mA, A.length))
    (hB : parse_message B = .ok (mB, B.length)) :
    parse_message (A ++ B) = .ok (mA, A.length) ∧
    parse_message ((A ++ B).drop A.length) = .ok (mB, B.length) := by
  refine ⟨parse_message_append B hA, ?_⟩
  rw [List.drop_left]
  exact hB

theorem claim_C9_witness :
    parse_message (pipeA ++ pipeB) = .ok (msgPipeA, pipeA.length) ∧
    parse_message ((pipeA ++ pipeB).drop pipeA.length) = .ok (msgPipeB, pipeB.length) :=
  claim_C9_pipelining pipeA pipeB msgPipeA msgPipeB (by decide) (by decide)

/-- C10: for every behaviour of the underlying parser (a returned message,
a falsy return, or a raised exception of any kind — `IncompleteMessage`,
`InvalidMessage` or other) `HTTPProcessor.get_one_http_message` never
propagates an exception: it is a total function that either returns the
parsed message with exactly the consumed prefix removed from the buffer, or
returns `None` with the buffer left completely unchanged. -/
theorem claim_C10_processor_total (b : ParserBehaviour) (buf : List Char) :
    (∃ m c, b = .ret (some m) c ∧
      get_one_http_message b buf = (some m, reduce_data buf c)) ∨
    get_one_http_message b buf = (none, buf) := by
  cases b with
  | exn => right; rfl
  | ret msg c =>
    cases msg with
    | none => right; rfl
    | some m => left; exact ⟨m, c, rfl, rfl⟩
